import Mathlib

/-!
Verification development for the router API of a micro-frontend host
(`src/sandbox/router/api.ts`).

The TypeScript source is shallowly embedded below:

* `navigate` embeds `createNavigationMethod(replace)`'s returned function,
  with the ambient collaborators (`appInstanceMap`, `getActiveApps`,
  `createURL`, `formatAppName`, the Location Codec and the History Bridge)
  carried in an explicit environment, and the externally observable actions
  (History mutations, popstate notification, error reports) returned as an
  effect trace.  A JavaScript `TypeError` (the `app!.sandBox!` non-null
  assertions) is embedded as `Option.none`.
* `executeNavigationGuard`, `runGuards`, `clearCurrentWhenUnmount` and the
  guard registration embed the guard pipeline, with the invocation trace
  made explicit so that ordering properties can be stated.
-/

namespace MicroAppRouter

/-- Decomposed URL without origin, as produced by the virtual location and by
`createURL` resolution (`pathname`, `search`, `hash`). -/
structure MicroLocation where
  pathname : String
  search : String
  hash : String
deriving DecidableEq, Repr

/-- `pathname + search + hash`, the "full path" the source concatenates. -/
def MicroLocation.fullPath (l : MicroLocation) : String :=
  l.pathname ++ l.search ++ l.hash

/-- An opaque JavaScript value used for history state. -/
inductive JSVal where
  | null
  | num (n : Int)
  | str (s : String)
deriving DecidableEq, Repr

/-- The History method picked by the navigation code. -/
inductive HistMethod where
  | pushState
  | replaceState
deriving DecidableEq, Repr

/-- The argument of `router.push` / `router.replace`.  `path = none` embeds a
runtime value that is not a string (`isString(req.path)` fails); `replace`
mirrors the optional boolean field (`none` = field absent / `undefined`). -/
structure RouterTarget where
  name : String
  path : Option String
  replaceField : Option Bool
  state : Option JSVal
deriving DecidableEq, Repr

/-- An application instance as far as the navigation code reads it:
its base URL and whether `app.sandBox` is present. -/
structure App where
  url : String
  sandBox : Bool
deriving DecidableEq, Repr

/-- Association-list lookup with string keys (embeds `Map.get` /
property lookup on a plain object). -/
def alookup {β : Type _} : List (String × β) → String → Option β
  | [], _ => none
  | (k, v) :: rest, key => if k = key then some v else alookup rest key

/-- Association-list update-or-append (embeds `Map.set`, keeping insertion
order like a JavaScript `Map`). -/
def aset {β : Type _} : List (String × β) → String → β → List (String × β)
  | [], key, v => [(key, v)]
  | (k, w) :: rest, key, v =>
    if k = key then (key, v) :: rest else (k, w) :: aset rest key v

/-- Association-list removal (embeds `Map.delete`; a `Map` holds each key at
most once, so removing every occurrence agrees with it on the lists that
arise from `Map` operations). -/
def adel {β : Type _} : List (String × β) → String → List (String × β)
  | [], _ => []
  | (k, w) :: rest, key =>
    if k = key then adel rest key else (k, w) :: adel rest key

/-- Embeds `getActiveApps().includes(appName)`. -/
def includes : List String → String → Bool
  | [], _ => false
  | x :: rest, s => if x = s then true else includes rest s

/-- The collaborators that the navigation method reads but never writes.
The function-valued fields are *modelled from the spec* (they live outside
`src/`): `formatAppName` normalizes the requested name (empty string =
invalid), `resolveURL` embeds `createURL(path, base)` restricted to the
surviving path+search+hash, `setMicroPath` embeds `setMicroPathToURL`
returning `{fullPath, searchHash}`, and `setMicroState` embeds the state
composition passed to the History Bridge. -/
structure StaticEnv where
  formatAppName : String → String
  apps : List (String × App)
  activeApps : List String
  originURL : String
  resolveURL : String → String → MicroLocation
  setMicroPath : String → MicroLocation → String × String
  setMicroState : String → JSVal → JSVal → String → String → JSVal

/-- The mutable world the navigation method can change: each sandboxed
application's virtual location, the per-application path encoded in the host
URL (read back through `getMicroPathFromURL`), and the real
`history.state`.  Modelled from the spec: applying the virtual History
method makes the virtual location equal the target, and the Location Codec
decodes, after an encode, the encoded location's full path. -/
structure DynEnv where
  virtualLoc : List (String × MicroLocation)
  hostMicroPaths : List (String × String)
  rawHistoryState : JSVal
deriving DecidableEq, Repr

/-- Externally observable actions of one `push`/`replace` call. -/
inductive Effect where
  | logError (msg : String)
  | virtualHistory (appName : String) (m : HistMethod) (state : JSVal) (path : String)
  | dispatchPopState (appName : String)
  | realHistory (m : HistMethod) (fullPath : String) (state : JSVal)
deriving DecidableEq, Repr

/-- Does the effect mutate a History stack (virtual or real)? -/
def Effect.isHistoryMutation : Effect → Bool
  | .virtualHistory _ _ _ _ => true
  | .realHistory _ _ _ => true
  | _ => false

/-- Is the effect the popstate notification dispatched into the sandbox? -/
def Effect.isNotification : Effect → Bool
  | .dispatchPopState _ => true
  | _ => false

/-- Is the effect a mutation of the real (host) History? -/
def Effect.isRealHistory : Effect → Bool
  | .realHistory _ _ _ => true
  | _ => false

/-- Is the effect an invocation of a virtual context's History object? -/
def Effect.isVirtualHistory : Effect → Bool
  | .virtualHistory _ _ _ _ => true
  | _ => false

/-- The error message of the `name & path` validation failure. -/
def requiredMsg (replace : Bool) : String :=
  "navigation failed, name & path are required when use router." ++
    (if replace then "replace" else "push")

/-- The error message reported when the target app's sandbox is closed. -/
def closedMsg (appName : String) : String :=
  "navigation failed, sandBox of app " ++ appName ++ " is closed"

/-- The active branch of `createNavigationMethod` (`api.ts`, lines 55–66):
compare the virtual location's full path with the candidate resolved against
the app's base URL; when they differ, apply the selected method to the
virtual History (which makes the virtual location the target — modelled from
the spec's virtual-context contract) and dispatch the popstate notification
into the sandbox. -/
def activeNav (σ : StaticEnv) (replace : Bool) (d : DynEnv) (req : RouterTarget)
    (appName : String) (a : App) (loc : MicroLocation) (path : String) :
    DynEnv × List Effect :=
  let currentFullPath := loc.pathname ++ loc.search ++ loc.hash
  let targetLocation := σ.resolveURL path a.url
  let targetPath :=
    targetLocation.pathname ++ targetLocation.search ++ targetLocation.hash
  if currentFullPath ≠ targetPath then
    let m : HistMethod :=
      if (replace = true ∧ req.replaceField ≠ some false) ∨ req.replaceField = some true
      then .replaceState else .pushState
    ({ d with virtualLoc := aset d.virtualLoc appName targetLocation },
      [.virtualHistory appName m (req.state.getD .null) targetPath,
       .dispatchPopState appName])
  else
    (d, [])

/-- The inactive branch of `createNavigationMethod` (`api.ts`, lines 67–89):
compare the path currently encoded in the host URL with the candidate
resolved against the host origin; when they differ, encode the candidate
into the host URL and apply the selected method to the real History with the
composed state (the updated `hostMicroPaths`/`rawHistoryState` are the
modelled effect of `nativeHistoryNavigate` on the real URL and
`history.state`). -/
def inactiveNav (σ : StaticEnv) (d : DynEnv) (req : RouterTarget)
    (appName : String) (path : String) : DynEnv × List Effect :=
  let targetLocation := σ.resolveURL path σ.originURL
  let targetPath :=
    targetLocation.pathname ++ targetLocation.search ++ targetLocation.hash
  if alookup d.hostMicroPaths appName ≠ some targetPath then
    let res := σ.setMicroPath appName targetLocation
    let m : HistMethod :=
      if req.replaceField = some false then .pushState else .replaceState
    let composed :=
      σ.setMicroState appName d.rawHistoryState (req.state.getD .null)
        σ.originURL res.2
    ({ d with hostMicroPaths := aset d.hostMicroPaths appName targetPath,
              rawHistoryState := composed },
      [.realHistory m res.1 composed])
  else
    (d, [])

/-- Embedding of the function returned by `createNavigationMethod (replace)`
(`src/sandbox/router/api.ts`, lines 48–94).  Returns the updated world and
the effect trace; `none` embeds the JavaScript `TypeError` that the `app!`
non-null assertion would raise if an active app had no registered instance
or no virtual location. -/
def navigate (σ : StaticEnv) (replace : Bool) (d : DynEnv) (req : RouterTarget) :
    Option (DynEnv × List Effect) :=
  let appName := σ.formatAppName req.name
  match req.path with
  | none => some (d, [.logError (requiredMsg replace)])
  | some path =>
    if appName = "" then
      some (d, [.logError (requiredMsg replace)])
    else
      let app := alookup σ.apps appName
      if app.elim false (fun a => !a.sandBox) then
        some (d, [.logError (closedMsg appName)])
      else if includes σ.activeApps appName then
        match app, alookup d.virtualLoc appName with
        | some a, some loc => some (activeNav σ replace d req appName a loc path)
        | _, _ => none
      else
        some (inactiveNav σ d req appName path)

/-- The candidate full path of a request, resolved the way the applicable
branch of `navigate` resolves it: against the app's base URL when the app is
active, against the host origin otherwise (`none` when the active lookup
would crash). -/
def resolvedFullPath (σ : StaticEnv) (appName path : String) : Option String :=
  if includes σ.activeApps appName then
    (alookup σ.apps appName).map fun a => (σ.resolveURL path a.url).fullPath
  else
    some (σ.resolveURL path σ.originURL).fullPath

/-- The value a keyed guard object holds at an application's key:
a function (with an identifier distinguishing different functions) or some
other value (`isFunction(guard[appName])` fails on it). -/
inductive GuardEntryVal where
  | fn (id : Nat)
  | notFn (id : Nat)
deriving DecidableEq, Repr

/-- A registered guard as `runGuards` classifies it: a function
(`isFunction(guard)`), a plain object keyed by application name
(`isPlainObject(guard)`), or any other value. -/
inductive RouterGuard where
  | fn (id : Nat)
  | obj (entries : List (String × GuardEntryVal))
  | other (id : Nat)
deriving DecidableEq, Repr

/-- The arguments a guard invocation receives: a global (function) guard gets
`(appName, to, from)`, a keyed guard gets `(to, from)`. -/
inductive GuardArgs where
  | global (appName : String) (toLoc fromLoc : MicroLocation)
  | keyed (toLoc fromLoc : MicroLocation)
deriving DecidableEq, Repr

/-- One guard invocation: which guard was called, and with which arguments. -/
structure GuardCall where
  guard : RouterGuard
  args : GuardArgs
deriving DecidableEq, Repr

/-- An observable step of `executeNavigationGuard` / the deferred idle task. -/
inductive NavEvent where
  | ledgerSet (appName : String) (toLoc : MicroLocation)
  | beforeCall (c : GuardCall)
  | scheduleIdle (appName : String)
  | afterCall (c : GuardCall)
deriving DecidableEq, Repr

/-- The guard-pipeline state: the Current-Location Ledger (`router.current`,
a JavaScript `Map`), the two insertion-ordered guard sets, and the queue of
deferred after-guard batches (`requestIdleCallback` is modelled from the
spec as an enqueue on an idle queue drained later by `runIdleTask`). -/
structure RouterState where
  current : List (String × MicroLocation)
  beforeGuards : List RouterGuard
  afterGuards : List RouterGuard
  idleQueue : List (String × MicroLocation × MicroLocation)
deriving DecidableEq, Repr

/-- Embedding of `runGuards` (`api.ts`, lines 113–126): iterate the guard
set in order; call a function guard with `(appName, to, from)`; call a plain
object's `appName` entry with `(to, from)` when that entry is a function;
skip anything else.  Returns the invocation trace. -/
def runGuards (appName : String) (toLoc fromLoc : MicroLocation) :
    List RouterGuard → List GuardCall
  | [] => []
  | g :: rest =>
    match g with
    | .fn _ => ⟨g, .global appName toLoc fromLoc⟩ :: runGuards appName toLoc fromLoc rest
    | .obj entries =>
      match alookup entries appName with
      | some (GuardEntryVal.fn _) =>
        ⟨g, .keyed toLoc fromLoc⟩ :: runGuards appName toLoc fromLoc rest
      | _ => runGuards appName toLoc fromLoc rest
    | .other _ => runGuards appName toLoc fromLoc rest

/-- Embedding of `executeNavigationGuard` (`api.ts`, lines 134–146): write
the ledger, run the before-guards synchronously, and schedule the
after-guards on the idle queue.  Returns the new state and the synchronous
event trace. -/
def executeNavigationGuard (st : RouterState) (appName : String)
    (toLoc fromLoc : MicroLocation) : RouterState × List NavEvent :=
  let st1 : RouterState := { st with current := aset st.current appName toLoc }
  let calls := runGuards appName toLoc fromLoc st1.beforeGuards
  let st2 : RouterState := { st1 with idleQueue := st1.idleQueue ++ [(appName, toLoc, fromLoc)] }
  (st2, NavEvent.ledgerSet appName toLoc ::
    (calls.map NavEvent.beforeCall ++ [NavEvent.scheduleIdle appName]))

/-- Drain one scheduled idle task: run the after-guards against the guard
set as it is *now* (the source closure reads `afterGuards.list()` only when
the idle callback fires). -/
def runIdleTask (st : RouterState) : RouterState × List NavEvent :=
  match st.idleQueue with
  | [] => (st, [])
  | (a, toLoc, fromLoc) :: rest =>
    ({ st with idleQueue := rest },
     (runGuards a toLoc fromLoc st.afterGuards).map NavEvent.afterCall)

/-- Embedding of `clearCurrentWhenUnmount` (`api.ts`, lines 148–150). -/
def clearCurrentWhenUnmount (st : RouterState) (appName : String) : RouterState :=
  { st with current := adel st.current appName }

/-- Modelled from the spec: `useCallbacks().add` (in `src/libs/utils`, not
under `src/` here) stores guards in an insertion-ordered set deduplicated by
reference — adding an already-present guard leaves the set unchanged. -/
def addGuard (l : List RouterGuard) (g : RouterGuard) : List RouterGuard :=
  if g ∈ l then l else l ++ [g]

/-- Modelled from the spec: the unregister capability returned by
`useCallbacks().add` deletes the guard from the set (`Set.delete`). -/
def removeGuard : List RouterGuard → RouterGuard → List RouterGuard
  | [], _ => []
  | x :: rest, g => if x = g then rest else x :: removeGuard rest g

/-- `router.beforeEach` (`api.ts`, line 162): register a before-guard. -/
def beforeEach (st : RouterState) (g : RouterGuard) : RouterState :=
  { st with beforeGuards := addGuard st.beforeGuards g }

/-- `router.afterEach` (`api.ts`, line 163): register an after-guard. -/
def afterEach (st : RouterState) (g : RouterGuard) : RouterState :=
  { st with afterGuards := addGuard st.afterGuards g }

/-- The invocation `runGuards` produces for a single guard, if any:
the per-guard dispatch rule. -/
def guardInvocation (appName : String) (toLoc fromLoc : MicroLocation) :
    RouterGuard → Option GuardCall
  | .fn i => some ⟨.fn i, .global appName toLoc fromLoc⟩
  | .obj entries =>
    match alookup entries appName with
    | some (GuardEntryVal.fn _) => some ⟨.obj entries, .keyed toLoc fromLoc⟩
    | _ => none
  | .other _ => none

/-- Number of invocations of a given guard in a trace. -/
def countCalls (g : RouterGuard) (cs : List GuardCall) : Nat :=
  cs.countP fun c => decide (c.guard = g)

/-! Concrete collaborator instances used to exercise the embedding on
explicit inputs (counterexamples and witnesses). -/

/-- A concrete `formatAppName`: the identity (every name is already a valid
formatted name). -/
def cFormat : String → String := fun n => n

/-- A concrete URL resolution: the request path is already a bare pathname,
so resolving it against any base keeps it and yields empty search/hash. -/
def cResolve : String → String → MicroLocation :=
  fun p _ => { pathname := p, search := "", hash := "" }

/-- A concrete Location Codec encode: prefix the app name. -/
def cSetPath : String → MicroLocation → String × String :=
  fun a l => ("/h-" ++ a ++ l.pathname, "sh-" ++ a)

/-- A concrete state composition: keep the caller-supplied state. -/
def cSetState : String → JSVal → JSVal → String → String → JSVal :=
  fun _ _ caller _ _ => caller

/-- A static world where `appa` is registered with an open sandbox and is
currently active. -/
def envActive : StaticEnv :=
  { formatAppName := cFormat
    apps := [("appa", { url := "http://sub/", sandBox := true })]
    activeApps := ["appa"]
    originURL := "http://host"
    resolveURL := cResolve
    setMicroPath := cSetPath
    setMicroState := cSetState }

/-- The same static world with no active apps (`appa` mounted-but-inactive,
`otherapp` entirely unknown). -/
def envInactive : StaticEnv :=
  { formatAppName := cFormat
    apps := [("appa", { url := "http://sub/", sandBox := true })]
    activeApps := []
    originURL := "http://host"
    resolveURL := cResolve
    setMicroPath := cSetPath
    setMicroState := cSetState }

/-- Starting world: `appa`'s virtual location is `/a`; the host URL encodes
no micro path. -/
def dyn0 : DynEnv :=
  { virtualLoc := [("appa", { pathname := "/a", search := "", hash := "" })]
    hostMicroPaths := []
    rawHistoryState := JSVal.null }

/-- The world after an active navigation of `appa` to `/b`. -/
def dyn1 : DynEnv :=
  { virtualLoc := [("appa", { pathname := "/b", search := "", hash := "" })]
    hostMicroPaths := []
    rawHistoryState := JSVal.null }

/-- The world after an inactive navigation of `appa` to `/page`. -/
def dynPage : DynEnv :=
  { virtualLoc := [("appa", { pathname := "/a", search := "", hash := "" })]
    hostMicroPaths := [("appa", "/page")]
    rawHistoryState := JSVal.null }

/-- The world after an inactive navigation of the unknown `otherapp` to
`/home`. -/
def dynHome : DynEnv :=
  { virtualLoc := [("appa", { pathname := "/a", search := "", hash := "" })]
    hostMicroPaths := [("otherapp", "/home")]
    rawHistoryState := JSVal.null }

/-- `router.push({name: "appa", path: "/b"})`, no `replace` field. -/
def reqPushB : RouterTarget :=
  { name := "appa", path := some "/b", replaceField := none, state := none }

/-- `{name: "appa", path: "/page"}`, no `replace` field. -/
def reqPage : RouterTarget :=
  { name := "appa", path := some "/page", replaceField := none, state := none }

/-- `{name: "otherapp", path: "/home"}` for the unknown application. -/
def reqUnknown : RouterTarget :=
  { name := "otherapp", path := some "/home", replaceField := none, state := none }

/-- `{name: "appa", path: <non-string>}`. -/
def reqBadPath : RouterTarget :=
  { name := "appa", path := none, replaceField := none, state := none }

/-- Concrete locations for guard-pipeline scenarios. -/
def locA : MicroLocation := { pathname := "/a", search := "", hash := "" }

/-- A second concrete location. -/
def locB : MicroLocation := { pathname := "/b", search := "", hash := "" }

/-- A global (function) guard. -/
def gFn : RouterGuard := RouterGuard.fn 1

/-- A keyed guard holding a function for `appa`. -/
def gKeyed : RouterGuard := RouterGuard.obj [("appa", GuardEntryVal.fn 2)]

/-- A malformed guard (neither function nor plain object). -/
def gOther : RouterGuard := RouterGuard.other 3

/-- A concrete guard-pipeline state with two before-guards and one
after-guard registered and an empty ledger. -/
def st0 : RouterState :=
  { current := []
    beforeGuards := [gFn, gKeyed]
    afterGuards := [gFn]
    idleQueue := [] }

/-! Helper lemmas about the association-list and guard-trace primitives. -/

theorem alookup_aset_self {β : Type _} (l : List (String × β)) (k : String) (v : β) :
    alookup (aset l k v) k = some v := by
  induction l with
  | nil => simp [aset, alookup]
  | cons hd rest ih =>
    obtain ⟨k', w⟩ := hd
    by_cases h : k' = k
    · simp [aset, h, alookup]
    · simp [aset, h, alookup, ih]

theorem alookup_aset_ne {β : Type _} (l : List (String × β)) (k k' : String) (v : β)
    (h : k' ≠ k) : alookup (aset l k v) k' = alookup l k' := by
  induction l with
  | nil => simp [aset, alookup, Ne.symm h]
  | cons hd rest ih =>
    obtain ⟨k'', w⟩ := hd
    by_cases hh : k'' = k
    · subst hh
      simp [aset, alookup, Ne.symm h, ih]
    · simp [aset, hh, alookup, ih]

theorem alookup_adel_self {β : Type _} (l : List (String × β)) (k : String) :
    alookup (adel l k) k = none := by
  induction l with
  | nil => simp [adel, alookup]
  | cons hd rest ih =>
    obtain ⟨k', w⟩ := hd
    by_cases h : k' = k
    · simp [adel, h, ih]
    · simp [adel, h, alookup, ih]

theorem runGuards_eq_filterMap (a : String) (t f : MicroLocation) (gs : List RouterGuard) :
    runGuards a t f gs = gs.filterMap (guardInvocation a t f) := by
  induction gs with
  | nil => simp [runGuards]
  | cons g rest ih =>
    cases g with
    | fn i => simp [runGuards, guardInvocation, ih]
    | obj es =>
      cases he : alookup es a with
      | none => simp [runGuards, guardInvocation, he, ih]
      | some v =>
        cases v with
        | fn i => simp [runGuards, guardInvocation, he, ih]
        | notFn i => simp [runGuards, guardInvocation, he, ih]
    | other i => simp [runGuards, guardInvocation, ih]

theorem guardInvocation_guard (a : String) (t f : MicroLocation) (g : RouterGuard)
    (c : GuardCall) (h : guardInvocation a t f g = some c) : c.guard = g := by
  cases g with
  | fn i => simp [guardInvocation] at h; subst h; rfl
  | obj es =>
    cases he : alookup es a with
    | none => simp [guardInvocation, he] at h
    | some v =>
      cases v with
      | fn i => simp [guardInvocation, he] at h; subst h; rfl
      | notFn i => simp [guardInvocation, he] at h
  | other i => simp [guardInvocation] at h

theorem countCalls_runGuards_le_count (g : RouterGuard) (a : String)
    (t f : MicroLocation) (l : List RouterGuard) :
    countCalls g (runGuards a t f l) ≤ l.count g := by
  induction l with
  | nil => simp [runGuards, countCalls]
  | cons x rest ih =>
    cases hx : guardInvocation a t f x with
    | none =>
      have hrun : runGuards a t f (x :: rest) = runGuards a t f rest := by
        simp [runGuards_eq_filterMap, List.filterMap_cons, hx]
      rw [hrun, List.count_cons]
      omega
    | some c =>
      have hrun : runGuards a t f (x :: rest) = c :: runGuards a t f rest := by
        simp [runGuards_eq_filterMap, List.filterMap_cons, hx]
      have hcg : c.guard = x := guardInvocation_guard a t f x c hx
      rw [hrun]
      unfold countCalls
      rw [List.countP_cons, List.count_cons, hcg]
      by_cases hxg : x = g
      · have h1 : (decide (x = g)) = true := by simp [hxg]
        have h2 : (x == g) = true := by simp [hxg]
        rw [h1, h2]
        simpa using Nat.add_le_add_right ih 1
      · have h1 : (decide (x = g)) = false := by simp [hxg]
        have h2 : (x == g) = false := by simp [hxg]
        rw [h1, h2]
        simpa using ih

theorem addGuard_nodup (l : List RouterGuard) (g : RouterGuard) (h : l.Nodup) :
    (addGuard l g).Nodup := by
  unfold addGuard
  by_cases hg : g ∈ l
  · simpa [hg] using h
  · simp [hg, List.nodup_append, h]

theorem removeGuard_not_mem (l : List RouterGuard) (g : RouterGuard) (h : l.Nodup) :
    g ∉ removeGuard l g := by
  induction l with
  | nil => simp [removeGuard]
  | cons x rest ih =>
    rw [List.nodup_cons] at h
    by_cases hx : x = g
    · subst hx
      simpa [removeGuard] using h.1
    · simp only [removeGuard, if_neg hx, List.mem_cons]
      rintro (hgx | hmem)
      · exact hx hgx.symm
      · exact ih h.2 hmem


/-- Claim C5: after `executeNavigationGuard appName to from` returns, the
Current-Location Ledger holds `to` at key `appName`, and the ledger write is
the first event of the synchronous trace — it precedes every before-guard
invocation, so a guard that reads the ledger during the call observes the
new location. -/
theorem exec_guard_ledger_consistency (st : RouterState) (a : String)
    (toLoc fromLoc : MicroLocation) :
    alookup (executeNavigationGuard st a toLoc fromLoc).1.current a = some toLoc ∧
    (executeNavigationGuard st a toLoc fromLoc).2.head? =
      some (NavEvent.ledgerSet a toLoc) ∧
    ∀ i c, (executeNavigationGuard st a toLoc fromLoc).2.get? i =
        some (NavEvent.beforeCall c) →
      ∃ j, j < i ∧ (executeNavigationGuard st a toLoc fromLoc).2.get? j =
        some (NavEvent.ledgerSet a toLoc) := by
  refine ⟨?_, ?_, ?_⟩
  · simp [executeNavigationGuard, alookup_aset_self]
  · simp [executeNavigationGuard]
  · intro i c h
    match i with
    | 0 => simp [executeNavigationGuard] at h
    | (j + 1) => exact ⟨0, Nat.succ_pos j, by simp [executeNavigationGuard]⟩

/-- Witness for claim C5 at a concrete state and navigation. -/
theorem exec_guard_ledger_consistency_witness :
    alookup (executeNavigationGuard st0 "appa" locB locA).1.current "appa" = some locB :=
  (exec_guard_ledger_consistency st0 "appa" locB locA).1

/-- Claim C8: after `clearCurrentWhenUnmount appName`, the ledger has no
entry for `appName`; a subsequent `executeNavigationGuard` for a different
name leaves it absent, and only a navigation for `appName` itself creates a
new entry. -/
theorem clear_current_removes_entry (st : RouterState) (a b : String)
    (toLoc fromLoc : MicroLocation) (hb : b ≠ a) :
    alookup (clearCurrentWhenUnmount st a).current a = none ∧
    alookup (executeNavigationGuard (clearCurrentWhenUnmount st a) b toLoc fromLoc).1.current a
      = none ∧
    alookup (executeNavigationGuard (clearCurrentWhenUnmount st a) a toLoc fromLoc).1.current a
      = some toLoc := by
  refine ⟨?_, ?_, ?_⟩
  · simp [clearCurrentWhenUnmount, alookup_adel_self]
  · simp [executeNavigationGuard, clearCurrentWhenUnmount,
      alookup_aset_ne _ b a _ (Ne.symm hb), alookup_adel_self]
  · simp [executeNavigationGuard, alookup_aset_self]

/-- Witness for claim C8 at concrete names and locations. -/
theorem clear_current_removes_entry_witness :
    alookup (clearCurrentWhenUnmount st0 "appa").current "appa" = none ∧
    alookup
      (executeNavigationGuard (clearCurrentWhenUnmount st0 "appa") "appb" locB locA).1.current
      "appa" = none ∧
    alookup
      (executeNavigationGuard (clearCurrentWhenUnmount st0 "appa") "appa" locB locA).1.current
      "appa" = some locB :=
  clear_current_removes_entry st0 "appa" "appb" locB locA (by decide)



/-- Claim C6: `runGuards` invokes the guards synchronously in registration
(list) order — the trace is the order-preserving `filterMap` of the
per-guard dispatch rule, so a guard registered earlier is always invoked
before one registered later; a global (function) guard receives
`(appName, to, from)`, and a keyed (object) guard is invoked exactly when it
holds a function entry for `appName`, receiving `(to, from)`; and
`executeNavigationGuard`'s before-phase is exactly this trace. -/
theorem before_guards_registration_order (a : String) (toLoc fromLoc : MicroLocation) :
    (∀ gs, runGuards a toLoc fromLoc gs = gs.filterMap (guardInvocation a toLoc fromLoc)) ∧
    (∀ i, guardInvocation a toLoc fromLoc (RouterGuard.fn i) =
      some ⟨RouterGuard.fn i, GuardArgs.global a toLoc fromLoc⟩) ∧
    (∀ es c, guardInvocation a toLoc fromLoc (RouterGuard.obj es) = some c →
      (∃ i, alookup es a = some (GuardEntryVal.fn i)) ∧
        c.args = GuardArgs.keyed toLoc fromLoc) ∧
    (∀ la ga lb gb lc ca cb, guardInvocation a toLoc fromLoc ga = some ca →
      guardInvocation a toLoc fromLoc gb = some cb →
      runGuards a toLoc fromLoc (la ++ ga :: (lb ++ gb :: lc)) =
        runGuards a toLoc fromLoc la ++
          ca :: (runGuards a toLoc fromLoc lb ++ cb :: runGuards a toLoc fromLoc lc)) ∧
    (∀ st : RouterState, (executeNavigationGuard st a toLoc fromLoc).2 =
      NavEvent.ledgerSet a toLoc ::
        (((st.beforeGuards.filterMap (guardInvocation a toLoc fromLoc)).map
            NavEvent.beforeCall) ++ [NavEvent.scheduleIdle a])) := by
  refine ⟨runGuards_eq_filterMap a toLoc fromLoc, fun i => rfl, ?_, ?_, ?_⟩
  · intro es c h
    cases he : alookup es a with
    | none => simp [guardInvocation, he] at h
    | some v =>
      cases v with
      | fn i =>
        simp [guardInvocation, he] at h
        subst h
        exact ⟨⟨i, rfl⟩, rfl⟩
      | notFn i => simp [guardInvocation, he] at h
  · intro la ga lb gb lc ca cb hga hgb
    simp [runGuards_eq_filterMap, List.filterMap_append, List.filterMap_cons, hga, hgb]
  · intro st
    simp [executeNavigationGuard, runGuards_eq_filterMap]

/-- Witness for claim C6: the ordering conjunct at two concrete guards. -/
theorem before_guards_registration_order_witness :
    runGuards "appa" locB locA ([] ++ gFn :: ([] ++ gKeyed :: [])) =
      runGuards "appa" locB locA [] ++
        ⟨gFn, GuardArgs.global "appa" locB locA⟩ ::
          (runGuards "appa" locB locA [] ++
            ⟨gKeyed, GuardArgs.keyed locB locA⟩ :: runGuards "appa" locB locA []) :=
  (before_guards_registration_order "appa" locB locA).2.2.2.1
    [] gFn [] gKeyed [] _ _ (by decide) (by decide)

/-- Claim C7: for a single navigation the synchronous trace is exactly
ledger update, then the before-guard calls, then the idle scheduling; no
after-guard call occurs synchronously — the after-guards are enqueued on
the idle queue and only run when `runIdleTask` drains it later. -/
theorem nav_event_phase_order (st : RouterState) (a : String)
    (toLoc fromLoc : MicroLocation) :
    (executeNavigationGuard st a toLoc fromLoc).2 =
      NavEvent.ledgerSet a toLoc ::
        ((runGuards a toLoc fromLoc st.beforeGuards).map NavEvent.beforeCall ++
          [NavEvent.scheduleIdle a]) ∧
    (∀ c, NavEvent.afterCall c ∉ (executeNavigationGuard st a toLoc fromLoc).2) ∧
    (executeNavigationGuard st a toLoc fromLoc).1.idleQueue =
      st.idleQueue ++ [(a, toLoc, fromLoc)] ∧
    (st.idleQueue = [] →
      runIdleTask (executeNavigationGuard st a toLoc fromLoc).1 =
        ({ (executeNavigationGuard st a toLoc fromLoc).1 with idleQueue := [] },
         (runGuards a toLoc fromLoc st.afterGuards).map NavEvent.afterCall)) := by
  refine ⟨rfl, ?_, rfl, ?_⟩
  · intro c hmem
    simp [executeNavigationGuard] at hmem
  · intro hq
    simp [executeNavigationGuard, runIdleTask, hq]

/-- Witness for claim C7: draining the idle queue of a concrete state runs
the after-guards. -/
theorem nav_event_phase_order_witness :
    runIdleTask (executeNavigationGuard st0 "appa" locB locA).1 =
      ({ (executeNavigationGuard st0 "appa" locB locA).1 with idleQueue := [] },
       (runGuards "appa" locB locA st0.afterGuards).map NavEvent.afterCall) :=
  (nav_event_phase_order st0 "appa" locB locA).2.2.2 rfl

/-- Claim C9: guard registration has set semantics — registering the same
guard twice leaves the guard set (and the router state reached through
`beforeEach`/`afterEach`) unchanged, the guard is invoked at most once per
navigation, and the unregister operation removes it. -/
theorem guard_registration_set_semantics (l : List RouterGuard) (g : RouterGuard)
    (a : String) (toLoc fromLoc : MicroLocation) (hnd : l.Nodup) :
    addGuard (addGuard l g) g = addGuard l g ∧
    (∀ st : RouterState, beforeEach (beforeEach st g) g = beforeEach st g) ∧
    (∀ st : RouterState, afterEach (afterEach st g) g = afterEach st g) ∧
    countCalls g (runGuards a toLoc fromLoc (addGuard l g)) ≤ 1 ∧
    g ∉ removeGuard (addGuard l g) g := by
  have haddidem : ∀ l' : List RouterGuard, addGuard (addGuard l' g) g = addGuard l' g := by
    intro l'
    unfold addGuard
    by_cases hg : g ∈ l'
    · simp [hg]
    · simp [hg]
  have hnd' : (addGuard l g).Nodup := addGuard_nodup l g hnd
  refine ⟨haddidem l, ?_, ?_, ?_, ?_⟩
  · intro st
    simp [beforeEach, haddidem]
  · intro st
    simp [afterEach, haddidem]
  · calc countCalls g (runGuards a toLoc fromLoc (addGuard l g))
        ≤ (addGuard l g).count g := countCalls_runGuards_le_count g a toLoc fromLoc _
      _ ≤ 1 := List.nodup_iff_count_le_one.mp hnd' g
  · exact removeGuard_not_mem _ g hnd'

/-- Witness for claim C9 at a concrete guard list. -/
theorem guard_registration_set_semantics_witness :
    addGuard (addGuard [gFn] gKeyed) gKeyed = addGuard [gFn] gKeyed ∧
    (∀ st : RouterState, beforeEach (beforeEach st gKeyed) gKeyed = beforeEach st gKeyed) ∧
    (∀ st : RouterState, afterEach (afterEach st gKeyed) gKeyed = afterEach st gKeyed) ∧
    countCalls gKeyed (runGuards "appa" locB locA (addGuard [gFn] gKeyed)) ≤ 1 ∧
    gKeyed ∉ removeGuard (addGuard [gFn] gKeyed) gKeyed :=
  guard_registration_set_semantics [gFn] gKeyed "appa" locB locA (by decide)

/-- Claim C10: a registered entry that is neither a function nor a plain
object holding a function at key `appName` is silently skipped by
`runGuards`: the trace is as if the entry were absent, and the remaining
guards still run (the embedding is total, so no failure occurs). -/
theorem malformed_guard_silently_skipped (a : String) (toLoc fromLoc : MicroLocation)
    (g : RouterGuard) (la lb : List RouterGuard)
    (hnotfn : ∀ i, g ≠ RouterGuard.fn i)
    (hnokey : ∀ es, g = RouterGuard.obj es →
      ∀ i, alookup es a ≠ some (GuardEntryVal.fn i)) :
    runGuards a toLoc fromLoc (la ++ g :: lb) =
      runGuards a toLoc fromLoc la ++ runGuards a toLoc fromLoc lb := by
  have hinv : guardInvocation a toLoc fromLoc g = none := by
    cases g with
    | fn i => exact absurd rfl (hnotfn i)
    | obj es =>
      cases he : alookup es a with
      | none => simp [guardInvocation, he]
      | some v =>
        cases v with
        | fn i => exact absurd he (hnokey es rfl i)
        | notFn i => simp [guardInvocation, he]
    | other i => rfl
  simp [runGuards_eq_filterMap, List.filterMap_append, List.filterMap_cons, hinv]

/-- Witness for claim C10: a malformed guard between two real guards. -/
theorem malformed_guard_silently_skipped_witness :
    runGuards "appa" locB locA ([gFn] ++ gOther :: [gKeyed]) =
      runGuards "appa" locB locA [gFn] ++ runGuards "appa" locB locA [gKeyed] :=
  malformed_guard_silently_skipped "appa" locB locA gOther [gFn] [gKeyed]
    (by intro i; simp [gOther])
    (by intro es h; simp [gOther] at h)



/-- Inversion principle for `navigate`: a successful call went through
exactly one of the six source paths (name-and-path validation failure,
closed sandbox, active move, active no-op, inactive move, inactive no-op),
with the corresponding guards established and the result fully
determined. -/
theorem navigate_cases (σ : StaticEnv) (rep : Bool) (d : DynEnv) (req : RouterTarget)
    (res : DynEnv × List Effect) (motive : Prop)
    (h : navigate σ rep d req = some res)
    (herr : req.path = none ∨ σ.formatAppName req.name = "" →
      res = (d, [Effect.logError (requiredMsg rep)]) → motive)
    (hclosed : ∀ p a, req.path = some p → σ.formatAppName req.name ≠ "" →
      alookup σ.apps (σ.formatAppName req.name) = some a → a.sandBox = false →
      res = (d, [Effect.logError (closedMsg (σ.formatAppName req.name))]) → motive)
    (hactiveMove : ∀ p a loc, req.path = some p → σ.formatAppName req.name ≠ "" →
      alookup σ.apps (σ.formatAppName req.name) = some a → a.sandBox = true →
      includes σ.activeApps (σ.formatAppName req.name) = true →
      alookup d.virtualLoc (σ.formatAppName req.name) = some loc →
      loc.fullPath ≠ (σ.resolveURL p a.url).fullPath →
      res = (DynEnv.mk
               (aset d.virtualLoc (σ.formatAppName req.name) (σ.resolveURL p a.url))
               d.hostMicroPaths d.rawHistoryState,
             [Effect.virtualHistory (σ.formatAppName req.name)
                (if (rep = true ∧ req.replaceField ≠ some false) ∨ req.replaceField = some true
                 then HistMethod.replaceState else HistMethod.pushState)
                (req.state.getD JSVal.null) (σ.resolveURL p a.url).fullPath,
              Effect.dispatchPopState (σ.formatAppName req.name)]) → motive)
    (hactiveNoop : ∀ p a loc, req.path = some p → σ.formatAppName req.name ≠ "" →
      alookup σ.apps (σ.formatAppName req.name) = some a → a.sandBox = true →
      includes σ.activeApps (σ.formatAppName req.name) = true →
      alookup d.virtualLoc (σ.formatAppName req.name) = some loc →
      loc.fullPath = (σ.resolveURL p a.url).fullPath →
      res = (d, []) → motive)
    (hinactMove : ∀ p, req.path = some p → σ.formatAppName req.name ≠ "" →
      (∀ a, alookup σ.apps (σ.formatAppName req.name) = some a → a.sandBox = true) →
      includes σ.activeApps (σ.formatAppName req.name) = false →
      alookup d.hostMicroPaths (σ.formatAppName req.name) ≠
        some (σ.resolveURL p σ.originURL).fullPath →
      res = (DynEnv.mk d.virtualLoc
               (aset d.hostMicroPaths (σ.formatAppName req.name)
                 (σ.resolveURL p σ.originURL).fullPath)
               (σ.setMicroState (σ.formatAppName req.name) d.rawHistoryState
                 (req.state.getD JSVal.null) σ.originURL
                 (σ.setMicroPath (σ.formatAppName req.name)
                   (σ.resolveURL p σ.originURL)).2),
             [Effect.realHistory
                (if req.replaceField = some false then HistMethod.pushState
                 else HistMethod.replaceState)
                (σ.setMicroPath (σ.formatAppName req.name) (σ.resolveURL p σ.originURL)).1
                (σ.setMicroState (σ.formatAppName req.name) d.rawHistoryState
                  (req.state.getD JSVal.null) σ.originURL
                  (σ.setMicroPath (σ.formatAppName req.name)
                    (σ.resolveURL p σ.originURL)).2)]) → motive)
    (hinactNoop : ∀ p, req.path = some p → σ.formatAppName req.name ≠ "" →
      (∀ a, alookup σ.apps (σ.formatAppName req.name) = some a → a.sandBox = true) →
      includes σ.activeApps (σ.formatAppName req.name) = false →
      alookup d.hostMicroPaths (σ.formatAppName req.name) =
        some (σ.resolveURL p σ.originURL).fullPath →
      res = (d, []) → motive) :
    motive := by
  cases hpath : req.path with
  | none =>
    have hcomp : navigate σ rep d req = some (d, [Effect.logError (requiredMsg rep)]) := by
      simp [navigate, hpath]
    rw [hcomp] at h
    exact herr (Or.inl hpath) (Option.some.inj h).symm
  | some p =>
    by_cases hn : σ.formatAppName req.name = ""
    · have hcomp : navigate σ rep d req = some (d, [Effect.logError (requiredMsg rep)]) := by
        simp [navigate, hpath, hn]
      rw [hcomp] at h
      exact herr (Or.inr hn) (Option.some.inj h).symm
    · cases happ : alookup σ.apps (σ.formatAppName req.name) with
      | some a =>
        cases hsb : a.sandBox with
        | false =>
          have hcomp : navigate σ rep d req =
              some (d, [Effect.logError (closedMsg (σ.formatAppName req.name))]) := by
            simp [navigate, hpath, hn, happ, hsb]
          rw [hcomp] at h
          exact hclosed p a hpath hn happ hsb (Option.some.inj h).symm
        | true =>
          cases hact : includes σ.activeApps (σ.formatAppName req.name) with
          | true =>
            cases hloc : alookup d.virtualLoc (σ.formatAppName req.name) with
            | none =>
              have hcomp : navigate σ rep d req = none := by
                simp [navigate, hpath, hn, happ, hsb, hact, hloc]
              rw [hcomp] at h
              exact Option.noConfusion h
            | some loc =>
              by_cases hmove : loc.pathname ++ loc.search ++ loc.hash =
                  (σ.resolveURL p a.url).pathname ++ (σ.resolveURL p a.url).search ++
                    (σ.resolveURL p a.url).hash
              · have hcomp : navigate σ rep d req = some (d, []) := by
                  simp [navigate, hpath, hn, happ, hsb, hact, hloc, activeNav, hmove]
                rw [hcomp] at h
                exact hactiveNoop p a loc hpath hn happ hsb hact hloc hmove
                  (Option.some.inj h).symm
              · have hcomp : navigate σ rep d req = some (DynEnv.mk
                    (aset d.virtualLoc (σ.formatAppName req.name) (σ.resolveURL p a.url))
                    d.hostMicroPaths d.rawHistoryState,
                    [Effect.virtualHistory (σ.formatAppName req.name)
                      (if (rep = true ∧ req.replaceField ≠ some false) ∨
                          req.replaceField = some true
                       then HistMethod.replaceState else HistMethod.pushState)
                      (req.state.getD JSVal.null) (σ.resolveURL p a.url).fullPath,
                     Effect.dispatchPopState (σ.formatAppName req.name)]) := by
                  simp [navigate, hpath, hn, happ, hsb, hact, hloc, activeNav, hmove,
                    MicroLocation.fullPath]
                rw [hcomp] at h
                exact hactiveMove p a loc hpath hn happ hsb hact hloc hmove
                  (Option.some.inj h).symm
          | false =>
            have hsbok : ∀ a', alookup σ.apps (σ.formatAppName req.name) = some a' →
                a'.sandBox = true := by
              intro a' ha'
              rw [happ] at ha'
              injection ha' with h2
              subst h2
              exact hsb
            by_cases hmove : alookup d.hostMicroPaths (σ.formatAppName req.name) =
                some ((σ.resolveURL p σ.originURL).pathname ++
                  (σ.resolveURL p σ.originURL).search ++ (σ.resolveURL p σ.originURL).hash)
            · have hcomp : navigate σ rep d req = some (d, []) := by
                simp [navigate, hpath, hn, happ, hsb, hact, inactiveNav, hmove]
              rw [hcomp] at h
              exact hinactNoop p hpath hn hsbok hact hmove (Option.some.inj h).symm
            · have hcomp : navigate σ rep d req = some (DynEnv.mk d.virtualLoc
                  (aset d.hostMicroPaths (σ.formatAppName req.name)
                    (σ.resolveURL p σ.originURL).fullPath)
                  (σ.setMicroState (σ.formatAppName req.name) d.rawHistoryState
                    (req.state.getD JSVal.null) σ.originURL
                    (σ.setMicroPath (σ.formatAppName req.name)
                      (σ.resolveURL p σ.originURL)).2),
                  [Effect.realHistory
                    (if req.replaceField = some false then HistMethod.pushState
                     else HistMethod.replaceState)
                    (σ.setMicroPath (σ.formatAppName req.name)
                      (σ.resolveURL p σ.originURL)).1
                    (σ.setMicroState (σ.formatAppName req.name) d.rawHistoryState
                      (req.state.getD JSVal.null) σ.originURL
                      (σ.setMicroPath (σ.formatAppName req.name)
                        (σ.resolveURL p σ.originURL)).2)]) := by
                simp [navigate, hpath, hn, happ, hsb, hact, inactiveNav, hmove,
                  MicroLocation.fullPath]
              rw [hcomp] at h
              exact hinactMove p hpath hn hsbok hact hmove (Option.some.inj h).symm
      | none =>
        have hsbok : ∀ a', alookup σ.apps (σ.formatAppName req.name) = some a' →
            a'.sandBox = true := by
          intro a' ha'
          rw [happ] at ha'
          exact Option.noConfusion ha'
        cases hact : includes σ.activeApps (σ.formatAppName req.name) with
        | true =>
          have hcomp : navigate σ rep d req = none := by
            simp [navigate, hpath, hn, happ, hact]
          rw [hcomp] at h
          exact Option.noConfusion h
        | false =>
          by_cases hmove : alookup d.hostMicroPaths (σ.formatAppName req.name) =
              some ((σ.resolveURL p σ.originURL).pathname ++
                (σ.resolveURL p σ.originURL).search ++ (σ.resolveURL p σ.originURL).hash)
          · have hcomp : navigate σ rep d req = some (d, []) := by
              simp [navigate, hpath, hn, happ, hact, inactiveNav, hmove]
            rw [hcomp] at h
            exact hinactNoop p hpath hn hsbok hact hmove (Option.some.inj h).symm
          · have hcomp : navigate σ rep d req = some (DynEnv.mk d.virtualLoc
                (aset d.hostMicroPaths (σ.formatAppName req.name)
                  (σ.resolveURL p σ.originURL).fullPath)
                (σ.setMicroState (σ.formatAppName req.name) d.rawHistoryState
                  (req.state.getD JSVal.null) σ.originURL
                  (σ.setMicroPath (σ.formatAppName req.name)
                    (σ.resolveURL p σ.originURL)).2),
                [Effect.realHistory
                  (if req.replaceField = some false then HistMethod.pushState
                   else HistMethod.replaceState)
                  (σ.setMicroPath (σ.formatAppName req.name)
                    (σ.resolveURL p σ.originURL)).1
                  (σ.setMicroState (σ.formatAppName req.name) d.rawHistoryState
                    (req.state.getD JSVal.null) σ.originURL
                    (σ.setMicroPath (σ.formatAppName req.name)
                      (σ.resolveURL p σ.originURL)).2)]) := by
              simp [navigate, hpath, hn, happ, hact, inactiveNav, hmove,
                MicroLocation.fullPath]
            rw [hcomp] at h
            exact hinactMove p hpath hn hsbok hact hmove (Option.some.inj h).symm



/-- Claim C3 (amended): the validation actually performed checks that the
formatted name is non-empty and the path is a string; additionally a known
application whose sandbox is closed is rejected.  In every such failure the
call does not throw (it returns a value), reports the failure with the
descriptive source message, and has no side effects: the world `d` is
returned unchanged and the only effect is the report.  (The claim's
"resolves to a known application" is not checked — see the
counterexample.) -/
theorem validation_failure_reported_noop (σ : StaticEnv) (rep : Bool) (d : DynEnv)
    (req : RouterTarget) :
    (req.path = none ∨ σ.formatAppName req.name = "" →
      navigate σ rep d req = some (d, [Effect.logError (requiredMsg rep)])) ∧
    (∀ p a, req.path = some p → σ.formatAppName req.name ≠ "" →
      alookup σ.apps (σ.formatAppName req.name) = some a → a.sandBox = false →
      navigate σ rep d req =
        some (d, [Effect.logError (closedMsg (σ.formatAppName req.name))])) := by
  constructor
  · rintro (hbad | hbad)
    · simp [navigate, hbad]
    · cases hpath : req.path with
      | none => simp [navigate, hpath]
      | some p => simp [navigate, hpath, hbad]
  · intro p a hpath hn happ hsb
    simp [navigate, hpath, hn, happ, hsb]

/-- Witness for amended claim C3: a non-string path is reported and is a
no-op. -/
theorem validation_failure_reported_noop_witness :
    navigate envActive false dyn0 reqBadPath =
      some (dyn0, [Effect.logError (requiredMsg false)]) :=
  (validation_failure_reported_noop envActive false dyn0 reqBadPath).1 (Or.inl rfl)

/-- Counterexample to claim C3 as stated: `otherapp` does not resolve to
any known application, yet the call is not rejected — it mutates the real
History (and the world: `dynHome ≠ dyn0`) and reports nothing. -/
theorem unknown_app_not_validation_failure :
    alookup envInactive.apps "otherapp" = none ∧
    navigate envInactive false dyn0 reqUnknown =
      some (dynHome, [Effect.realHistory HistMethod.replaceState "/h-otherapp/home"
        JSVal.null]) ∧
    dynHome ≠ dyn0 := by decide

/-- Counterexample to claim C2 as stated: in the inactive branch,
`push({name, path})` with no `replace` field performs a `replaceState` on
the real History, not a push. -/
theorem inactive_push_defaults_to_replace :
    navigate envInactive false dyn0 reqPage =
      some (dynPage, [Effect.realHistory HistMethod.replaceState "/h-appa/page"
        JSVal.null]) := by decide

/-- Claim C2 (amended): every virtual-History mutation uses
replace iff (caller is the replace variant and `replace` is not explicitly
`false`) or `replace === true` — which yields all four claimed rules in the
active branch; every real-History mutation (inactive branch) uses push iff
`replace === false` and otherwise replace, so there `push` with no
`replace` field performs a replace. -/
theorem method_selection_rule (σ : StaticEnv) (rep : Bool) (d : DynEnv)
    (req : RouterTarget) (d' : DynEnv) (effs : List Effect)
    (h : navigate σ rep d req = some (d', effs)) :
    (∀ an m st pth, Effect.virtualHistory an m st pth ∈ effs →
      m = if (rep = true ∧ req.replaceField ≠ some false) ∨ req.replaceField = some true
          then HistMethod.replaceState else HistMethod.pushState) ∧
    (∀ m fp st, Effect.realHistory m fp st ∈ effs →
      m = if req.replaceField = some false then HistMethod.pushState
          else HistMethod.replaceState) := by
  refine navigate_cases σ rep d req (d', effs) _ h ?_ ?_ ?_ ?_ ?_ ?_
  · intro _ hres1
    have he : effs = [Effect.logError (requiredMsg rep)] := congrArg Prod.snd hres1
    subst he
    constructor
    · intro an m st pth hmem
      simp at hmem
    · intro m fp st hmem
      simp at hmem
  · intro pc a hpc hn happ hsb hres1
    have he : effs = [Effect.logError (closedMsg (σ.formatAppName req.name))] :=
      congrArg Prod.snd hres1
    subst he
    constructor
    · intro an m st pth hmem
      simp at hmem
    · intro m fp st hmem
      simp at hmem
  · intro pc a loc hpc hn happ hsb hact hloc hmv hres1
    have he : effs = [Effect.virtualHistory (σ.formatAppName req.name)
        (if (rep = true ∧ req.replaceField ≠ some false) ∨ req.replaceField = some true
         then HistMethod.replaceState else HistMethod.pushState)
        (req.state.getD JSVal.null) (σ.resolveURL pc a.url).fullPath,
      Effect.dispatchPopState (σ.formatAppName req.name)] := congrArg Prod.snd hres1
    subst he
    constructor
    · intro an m st pth hmem
      rw [List.mem_cons, List.mem_singleton] at hmem
      rcases hmem with heq | heq
      · injection heq with e1 e2 e3 e4
      · exact Effect.noConfusion heq
    · intro m fp st hmem
      rw [List.mem_cons, List.mem_singleton] at hmem
      rcases hmem with heq | heq
      · exact Effect.noConfusion heq
      · exact Effect.noConfusion heq
  · intro pc a loc hpc hn happ hsb hact hloc hmv hres1
    have he : effs = [] := congrArg Prod.snd hres1
    subst he
    constructor
    · intro an m st pth hmem
      simp at hmem
    · intro m fp st hmem
      simp at hmem
  · intro pc hpc hn hsbok hact hmv hres1
    have he : effs = [Effect.realHistory
        (if req.replaceField = some false then HistMethod.pushState
         else HistMethod.replaceState)
        (σ.setMicroPath (σ.formatAppName req.name) (σ.resolveURL pc σ.originURL)).1
        (σ.setMicroState (σ.formatAppName req.name) d.rawHistoryState
          (req.state.getD JSVal.null) σ.originURL
          (σ.setMicroPath (σ.formatAppName req.name)
            (σ.resolveURL pc σ.originURL)).2)] := congrArg Prod.snd hres1
    subst he
    constructor
    · intro an m st pth hmem
      rw [List.mem_singleton] at hmem
      exact Effect.noConfusion hmem
    · intro m fp st hmem
      rw [List.mem_singleton] at hmem
      injection hmem with e1 e2 e3
  · intro pc hpc hn hsbok hact hmv hres1
    have he : effs = [] := congrArg Prod.snd hres1
    subst he
    constructor
    · intro an m st pth hmem
      simp at hmem
    · intro m fp st hmem
      simp at hmem

/-- Witness for amended claim C2: a concrete active replace call uses
`replaceState`. -/
theorem method_selection_rule_witness :
    HistMethod.replaceState =
      (if ((true : Bool) = true ∧ (none : Option Bool) ≠ some false) ∨
          (none : Option Bool) = some true
       then HistMethod.replaceState else HistMethod.pushState) :=
  (method_selection_rule envActive true dyn0 reqPushB dyn1
    [Effect.virtualHistory "appa" HistMethod.replaceState JSVal.null "/b",
     Effect.dispatchPopState "appa"] (by decide)).1
    "appa" HistMethod.replaceState JSVal.null "/b" (by decide)



/-- Claim C4: a call for an application classified active produces no real
(host) History mutation, and a call for an application classified inactive
never invokes a virtual context's History object. -/
theorem frame_effect_separation (σ : StaticEnv) (rep : Bool) (d : DynEnv)
    (req : RouterTarget) (d' : DynEnv) (effs : List Effect)
    (h : navigate σ rep d req = some (d', effs)) :
    (includes σ.activeApps (σ.formatAppName req.name) = true →
      ∀ e ∈ effs, e.isRealHistory = false) ∧
    (includes σ.activeApps (σ.formatAppName req.name) = false →
      ∀ e ∈ effs, e.isVirtualHistory = false) := by
  refine navigate_cases σ rep d req (d', effs) _ h ?_ ?_ ?_ ?_ ?_ ?_
  · intro _ hres1
    have he : effs = [Effect.logError (requiredMsg rep)] := congrArg Prod.snd hres1
    subst he
    constructor <;> intro _ e hmem <;> rw [List.mem_singleton] at hmem <;> subst hmem <;> rfl
  · intro pc a hpc hn happ hsb hres1
    have he : effs = [Effect.logError (closedMsg (σ.formatAppName req.name))] :=
      congrArg Prod.snd hres1
    subst he
    constructor <;> intro _ e hmem <;> rw [List.mem_singleton] at hmem <;> subst hmem <;> rfl
  · intro pc a loc hpc hn happ hsb hact hloc hmv hres1
    have he : effs = [Effect.virtualHistory (σ.formatAppName req.name)
        (if (rep = true ∧ req.replaceField ≠ some false) ∨ req.replaceField = some true
         then HistMethod.replaceState else HistMethod.pushState)
        (req.state.getD JSVal.null) (σ.resolveURL pc a.url).fullPath,
      Effect.dispatchPopState (σ.formatAppName req.name)] := congrArg Prod.snd hres1
    subst he
    constructor
    · intro _ e hmem
      rw [List.mem_cons, List.mem_singleton] at hmem
      rcases hmem with heq | heq <;> subst heq <;> rfl
    · intro hfalse
      rw [hact] at hfalse
      exact Bool.noConfusion hfalse
  · intro pc a loc hpc hn happ hsb hact hloc hmv hres1
    have he : effs = [] := congrArg Prod.snd hres1
    subst he
    constructor <;> intro _ e hmem <;> simp at hmem
  · intro pc hpc hn hsbok hact hmv hres1
    have he : effs = [Effect.realHistory
        (if req.replaceField = some false then HistMethod.pushState
         else HistMethod.replaceState)
        (σ.setMicroPath (σ.formatAppName req.name) (σ.resolveURL pc σ.originURL)).1
        (σ.setMicroState (σ.formatAppName req.name) d.rawHistoryState
          (req.state.getD JSVal.null) σ.originURL
          (σ.setMicroPath (σ.formatAppName req.name)
            (σ.resolveURL pc σ.originURL)).2)] := congrArg Prod.snd hres1
    subst he
    constructor
    · intro htrue
      rw [hact] at htrue
      exact Bool.noConfusion htrue
    · intro _ e hmem
      rw [List.mem_singleton] at hmem
      subst hmem
      rfl
  · intro pc hpc hn hsbok hact hmv hres1
    have he : effs = [] := congrArg Prod.snd hres1
    subst he
    constructor <;> intro _ e hmem <;> simp at hmem

/-- Witness for claim C4 at a concrete active navigation. -/
theorem frame_effect_separation_witness :
    Effect.isRealHistory (Effect.dispatchPopState "appa") = false :=
  (frame_effect_separation envActive false dyn0 reqPushB dyn1
    [Effect.virtualHistory "appa" HistMethod.pushState JSVal.null "/b",
     Effect.dispatchPopState "appa"] (by decide)).1 (by decide)
    (Effect.dispatchPopState "appa") (by decide)



/-- Claim C1: two consecutive `push`/`replace` calls (of either method)
whose requests carry string paths, normalize to the same application name,
and resolve to the same full path (against the app base URL when active,
against the host origin when inactive) are idempotent: whatever the first
call did, the second call returns the world unchanged and performs no
History mutation and dispatches no notification. -/
theorem repeat_navigation_is_silent (σ : StaticEnv) (rep rep' : Bool) (d : DynEnv)
    (req req' : RouterTarget) (p p' : String) (d₁ : DynEnv) (effs₁ : List Effect)
    (hp : req.path = some p) (hp' : req'.path = some p')
    (hname : σ.formatAppName req'.name = σ.formatAppName req.name)
    (hres : resolvedFullPath σ (σ.formatAppName req.name) p' =
            resolvedFullPath σ (σ.formatAppName req.name) p)
    (h₁ : navigate σ rep d req = some (d₁, effs₁)) :
    ∃ effs₂, navigate σ rep' d₁ req' = some (d₁, effs₂) ∧
      ∀ e ∈ effs₂, e.isHistoryMutation = false ∧ e.isNotification = false := by
  refine navigate_cases σ rep d req (d₁, effs₁) _ h₁ ?_ ?_ ?_ ?_ ?_ ?_
  · -- validation failure: name empty (path is a string by hp)
    intro hbad hres1
    have hd : d₁ = d := congrArg Prod.fst hres1
    subst hd
    rcases hbad with hbad | hn
    · rw [hp] at hbad
      exact Option.noConfusion hbad
    · refine ⟨[Effect.logError (requiredMsg rep')], ?_, ?_⟩
      · simp [navigate, hp', hname, hn]
      · intro e hmem
        rw [List.mem_singleton] at hmem
        subst hmem
        exact ⟨rfl, rfl⟩
  · -- sandbox closed: second call reports the same failure, no mutation
    intro pc a hpc hn happ hsb hres1
    have hd : d₁ = d := congrArg Prod.fst hres1
    subst hd
    refine ⟨[Effect.logError (closedMsg (σ.formatAppName req.name))], ?_, ?_⟩
    · simp [navigate, hp', hname, hn, happ, hsb]
    · intro e hmem
      rw [List.mem_singleton] at hmem
      subst hmem
      exact ⟨rfl, rfl⟩
  · -- active, first call moved: second call finds the virtual location updated
    intro pc a loc hpc hn happ hsb hact hloc hmv hres1
    rw [hp] at hpc
    injection hpc with hpc
    subst hpc
    have hd : d₁ = DynEnv.mk
        (aset d.virtualLoc (σ.formatAppName req.name) (σ.resolveURL p a.url))
        d.hostMicroPaths d.rawHistoryState := congrArg Prod.fst hres1
    have e2 : resolvedFullPath σ (σ.formatAppName req.name) p =
        some ((σ.resolveURL p a.url).fullPath) := by
      simp [resolvedFullPath, hact, happ]
    have e1 : resolvedFullPath σ (σ.formatAppName req.name) p' =
        some ((σ.resolveURL p' a.url).fullPath) := by
      simp [resolvedFullPath, hact, happ]
    rw [e1, e2] at hres
    have htp : (σ.resolveURL p' a.url).fullPath = (σ.resolveURL p a.url).fullPath :=
      Option.some.inj hres
    have htp2 : (σ.resolveURL p' a.url).pathname ++ (σ.resolveURL p' a.url).search ++
        (σ.resolveURL p' a.url).hash = (σ.resolveURL p a.url).pathname ++
        (σ.resolveURL p a.url).search ++ (σ.resolveURL p a.url).hash := by
      simpa [MicroLocation.fullPath] using htp
    subst hd
    refine ⟨[], ?_, by intro e hmem; simp at hmem⟩
    simp [navigate, hp', hname, hn, happ, hsb, hact, alookup_aset_self,
      activeNav, htp2]
  · -- active, first call was already at the target: second call still is
    intro pc a loc hpc hn happ hsb hact hloc heqv hres1
    rw [hp] at hpc
    injection hpc with hpc
    subst hpc
    have hd : d₁ = d := congrArg Prod.fst hres1
    subst hd
    have e2 : resolvedFullPath σ (σ.formatAppName req.name) p =
        some ((σ.resolveURL p a.url).fullPath) := by
      simp [resolvedFullPath, hact, happ]
    have e1 : resolvedFullPath σ (σ.formatAppName req.name) p' =
        some ((σ.resolveURL p' a.url).fullPath) := by
      simp [resolvedFullPath, hact, happ]
    rw [e1, e2] at hres
    have htp : (σ.resolveURL p' a.url).fullPath = (σ.resolveURL p a.url).fullPath :=
      Option.some.inj hres
    have htp2 : (σ.resolveURL p' a.url).pathname ++ (σ.resolveURL p' a.url).search ++
        (σ.resolveURL p' a.url).hash = (σ.resolveURL p a.url).pathname ++
        (σ.resolveURL p a.url).search ++ (σ.resolveURL p a.url).hash := by
      simpa [MicroLocation.fullPath] using htp
    have heqv2 : loc.pathname ++ loc.search ++ loc.hash = (σ.resolveURL p a.url).pathname ++
        (σ.resolveURL p a.url).search ++ (σ.resolveURL p a.url).hash := by
      simpa [MicroLocation.fullPath] using heqv
    refine ⟨[], ?_, by intro e hmem; simp at hmem⟩
    simp [navigate, hp', hname, hn, happ, hsb, hact, hloc, activeNav, htp2, heqv2]
  · -- inactive, first call moved: the host URL now encodes the target
    intro pc hpc hn hsbok hact hmv hres1
    rw [hp] at hpc
    injection hpc with hpc
    subst hpc
    have hd : d₁ = DynEnv.mk d.virtualLoc
        (aset d.hostMicroPaths (σ.formatAppName req.name)
          (σ.resolveURL p σ.originURL).fullPath)
        (σ.setMicroState (σ.formatAppName req.name) d.rawHistoryState
          (req.state.getD JSVal.null) σ.originURL
          (σ.setMicroPath (σ.formatAppName req.name)
            (σ.resolveURL p σ.originURL)).2) := congrArg Prod.fst hres1
    have e2 : resolvedFullPath σ (σ.formatAppName req.name) p =
        some ((σ.resolveURL p σ.originURL).fullPath) := by
      simp [resolvedFullPath, hact]
    have e1 : resolvedFullPath σ (σ.formatAppName req.name) p' =
        some ((σ.resolveURL p' σ.originURL).fullPath) := by
      simp [resolvedFullPath, hact]
    rw [e1, e2] at hres
    have htp : (σ.resolveURL p' σ.originURL).fullPath =
        (σ.resolveURL p σ.originURL).fullPath := Option.some.inj hres
    have htp2 : (σ.resolveURL p' σ.originURL).pathname ++
        (σ.resolveURL p' σ.originURL).search ++ (σ.resolveURL p' σ.originURL).hash =
        (σ.resolveURL p σ.originURL).pathname ++ (σ.resolveURL p σ.originURL).search ++
        (σ.resolveURL p σ.originURL).hash := by
      simpa [MicroLocation.fullPath] using htp
    subst hd
    refine ⟨[], ?_, by intro e hmem; simp at hmem⟩
    cases happ : alookup σ.apps (σ.formatAppName req.name) with
    | none =>
      simp [navigate, hp', hname, hn, happ, hact, inactiveNav, htp2,
        alookup_aset_self, MicroLocation.fullPath]
    | some a =>
      have hsb : a.sandBox = true := hsbok a happ
      simp [navigate, hp', hname, hn, happ, hsb, hact, inactiveNav, htp2,
        alookup_aset_self, MicroLocation.fullPath]
  · -- inactive, already encoded: still encoded
    intro pc hpc hn hsbok hact heqv hres1
    rw [hp] at hpc
    injection hpc with hpc
    subst hpc
    have hd : d₁ = d := congrArg Prod.fst hres1
    subst hd
    have e2 : resolvedFullPath σ (σ.formatAppName req.name) p =
        some ((σ.resolveURL p σ.originURL).fullPath) := by
      simp [resolvedFullPath, hact]
    have e1 : resolvedFullPath σ (σ.formatAppName req.name) p' =
        some ((σ.resolveURL p' σ.originURL).fullPath) := by
      simp [resolvedFullPath, hact]
    rw [e1, e2] at hres
    have htp : (σ.resolveURL p' σ.originURL).fullPath =
        (σ.resolveURL p σ.originURL).fullPath := Option.some.inj hres
    have htp2 : (σ.resolveURL p' σ.originURL).pathname ++
        (σ.resolveURL p' σ.originURL).search ++ (σ.resolveURL p' σ.originURL).hash =
        (σ.resolveURL p σ.originURL).pathname ++ (σ.resolveURL p σ.originURL).search ++
        (σ.resolveURL p σ.originURL).hash := by
      simpa [MicroLocation.fullPath] using htp
    have heqv2 : alookup d₁.hostMicroPaths (σ.formatAppName req.name) =
        some ((σ.resolveURL p σ.originURL).pathname ++ (σ.resolveURL p σ.originURL).search ++
          (σ.resolveURL p σ.originURL).hash) := by
      simpa [MicroLocation.fullPath] using heqv
    refine ⟨[], ?_, by intro e hmem; simp at hmem⟩
    cases happ : alookup σ.apps (σ.formatAppName req.name) with
    | none =>
      simp [navigate, hp', hname, hn, happ, hact, inactiveNav, htp2, heqv2]
    | some a =>
      have hsb : a.sandBox = true := hsbok a happ
      simp [navigate, hp', hname, hn, happ, hsb, hact, inactiveNav, htp2, heqv2]

/-- Witness for claim C1: repeating a concrete active push is silent. -/
theorem repeat_navigation_is_silent_witness :
    ∃ effs₂, navigate envActive true dyn1 reqPushB = some (dyn1, effs₂) ∧
      ∀ e ∈ effs₂, e.isHistoryMutation = false ∧ e.isNotification = false :=
  repeat_navigation_is_silent envActive false true dyn0 reqPushB reqPushB "/b" "/b" dyn1
    [Effect.virtualHistory "appa" HistMethod.pushState JSVal.null "/b",
     Effect.dispatchPopState "appa"]
    rfl rfl rfl rfl (by decide)

end MicroAppRouter
